import Mathlib

/-!
Shallow embedding of the statistics-view layer of
`tensorflow_data_validation/anomalies/statistics_view.h`.

The header declares two view types, `DatasetStatsView` and
`FeatureStatsView`, over a shared immutable backing store
(`DatasetStatsViewImpl`).  Inline member bodies present in the header
(`min_num_values`, `max_num_values`, `environment`, `type`, `name`,
`is_struct`, `data`) are translated from the source directly; members
that are only declared in the header (their `.cc` bodies are not part of
the repository snapshot) are modelled from the spec, with a doc comment
saying so on each such definition.

Modelling conventions: C++ `double` is embedded as `Rat`, proto `uint64`
counts as `Nat`, proto `int64` as `Int`; `absl::optional` / a check-fail
is `Option` (with `none` for the failing branch); the flat proto record
list is a `List`; a feature view's `int` index is a `Nat` (indices are
only ever produced from positions in the record list).
-/

/-- A path is an ordered sequence of name segments (see `path.h` usage in
the header: the spec defines equality as segment-sequence equality). -/
abbrev FeaturePath := List String

/-- Modelled from the spec: path `a` is a strict prefix of path `b` iff
`a`'s segments are an initial, proper subsequence of `b`'s segments. -/
def strictAncPath (a b : FeaturePath) : Bool :=
  decide (a.length < b.length) && decide (a = b.take a.length)

/-- The `FeatureNameStatistics::Type` enumeration of the statistics proto,
including the STRUCT marker. -/
inductive FeatureType : Type where
  | INT
  | FLOAT
  | STRING
  | BYTES
  | STRUCT
deriving DecidableEq, Repr

/-- The weighted sub-block of `CommonStatistics`
(`weighted_common_stats`): weighted presence counts, stored as doubles. -/
structure WeightedCommonStats : Type where
  numNonMissing : Rat
  numMissing : Rat
deriving DecidableEq, Repr

/-- The `CommonStatistics` block of one feature record: presence counts
and value-count bounds, plus the optional weighted counterpart
(`hasWeighted` models proto submessage presence; `weighted` holds the
proto default when absent). -/
structure CommonStatistics : Type where
  numNonMissing : Nat
  numMissing : Nat
  minNumValues : Int
  maxNumValues : Int
  hasWeighted : Bool
  weighted : WeightedCommonStats
deriving DecidableEq, Repr

/-- One entry of the dataset's flat list of per-feature statistics
(`FeatureNameStatistics`): its derived path, declared type and common
statistics block (the fields the view layer's structural and counting
queries consult). -/
structure FeatureNameStatistics : Type where
  path : FeaturePath
  type : FeatureType
  common : CommonStatistics
deriving DecidableEq, Repr

/-- The proto default (value-initialized) feature record. -/
def defaultFeatureNameStatistics : FeatureNameStatistics :=
  { path := []
    type := FeatureType.INT
    common :=
      { numNonMissing := 0
        numMissing := 0
        minNumValues := 0
        maxNumValues := 0
        hasWeighted := false
        weighted := { numNonMissing := 0, numMissing := 0 } } }

/-- The dataset-level statistics record (`DatasetFeatureStatistics`):
total example counts (unweighted `uint64`, weighted `double`) and the
ordered flat list of feature records. -/
structure DatasetStats : Type where
  numExamples : Nat
  weightedNumExamples : Rat
  features : List FeatureNameStatistics
deriving DecidableEq, Repr

/-- The shared backing store `DatasetStatsViewImpl`: the dataset record,
the weighting mode, the optional environment tag, and the optional
previous/serving dataset views (each with its own backing store, hence
the recursion). -/
inductive DatasetStatsViewImpl : Type where
  | mk : DatasetStats → Bool → Option String → Option DatasetStatsViewImpl →
      Option DatasetStatsViewImpl → DatasetStatsViewImpl

/-- The dataset record held by the backing store. -/
def DatasetStatsViewImpl.data : DatasetStatsViewImpl → DatasetStats
  | DatasetStatsViewImpl.mk d _ _ _ _ => d

/-- The weighting mode held by the backing store. -/
def DatasetStatsViewImpl.byWeight : DatasetStatsViewImpl → Bool
  | DatasetStatsViewImpl.mk _ w _ _ _ => w

/-- The optional environment tag held by the backing store. -/
def DatasetStatsViewImpl.environment : DatasetStatsViewImpl → Option String
  | DatasetStatsViewImpl.mk _ _ e _ _ => e

/-- The optional previous snapshot held by the backing store. -/
def DatasetStatsViewImpl.previous :
    DatasetStatsViewImpl → Option DatasetStatsViewImpl
  | DatasetStatsViewImpl.mk _ _ _ p _ => p

/-- The optional serving snapshot held by the backing store. -/
def DatasetStatsViewImpl.serving :
    DatasetStatsViewImpl → Option DatasetStatsViewImpl
  | DatasetStatsViewImpl.mk _ _ _ _ s => s

/-- `DatasetStatsView`: a lightweight handle holding one shared reference
to a backing store (`impl_`, guaranteed non-null, hence not optional). -/
structure DatasetStatsView : Type where
  impl : DatasetStatsViewImpl

/-- `FeatureStatsView`: a pair of a dataset view (held by value,
`parent_view_`) and an index into the backing record list (`index_`). -/
structure FeatureStatsView : Type where
  parentView : DatasetStatsView
  index : Nat

/-- Accessor `DatasetStatsView::by_weight()`. -/
def DatasetStatsView.byWeight (d : DatasetStatsView) : Bool :=
  d.impl.byWeight

/-- Accessor `DatasetStatsView::environment()`. -/
def DatasetStatsView.environment (d : DatasetStatsView) : Option String :=
  d.impl.environment

/-- Modelled from the spec (body in the missing `.cc`):
`DatasetStatsView::GetPrevious()` returns the configured previous view or
absent. -/
def DatasetStatsView.getPrevious (d : DatasetStatsView) :
    Option DatasetStatsView :=
  d.impl.previous.map DatasetStatsView.mk

/-- Modelled from the spec (body in the missing `.cc`):
`DatasetStatsView::GetServing()` returns the configured serving view or
absent. -/
def DatasetStatsView.getServing (d : DatasetStatsView) :
    Option DatasetStatsView :=
  d.impl.serving.map DatasetStatsView.mk

/-- Modelled from the spec (body in the missing `.cc`):
`DatasetStatsView::GetNumExamples()` returns the dataset-level total,
weighted if `by_weight` else unweighted. -/
def DatasetStatsView.getNumExamples (d : DatasetStatsView) : Rat :=
  if d.impl.byWeight then d.impl.data.weightedNumExamples
  else (d.impl.data.numExamples : Rat)

/-- Modelled from the spec (body in the missing `.cc`):
`DatasetStatsView::WeightedStatisticsExist()` is true iff the dataset
record carries a weighted total and every feature record carries a
weighted counterpart. -/
def DatasetStatsView.weightedStatisticsExist (d : DatasetStatsView) : Bool :=
  decide (d.impl.data.weightedNumExamples ≠ 0) &&
    d.impl.data.features.all (fun r => r.common.hasWeighted)

/-- Modelled from the spec (body in the missing `.cc`):
`DatasetStatsView::feature_name_statistics(index)` — record lookup by
index; the check-fail on an out-of-range index is embedded as `none`. -/
def DatasetStatsView.featureNameStatistics (d : DatasetStatsView)
    (index : Nat) : Option FeatureNameStatistics :=
  d.impl.data.features.get? index

/-- Modelled from the spec (body in the missing `.cc`):
`DatasetStatsView::features()` constructs one `FeatureStatsView` per
record, in the record list's original order. -/
def DatasetStatsView.features (d : DatasetStatsView) :
    List FeatureStatsView :=
  (List.range d.impl.data.features.length).map
    (fun i => FeatureStatsView.mk d i)

/-- Modelled from the spec (body in the missing `.cc`):
`DatasetStatsView::GetPath(view)` returns the path of the feature's
record (in-range for every view produced by `features()`). -/
def DatasetStatsView.getPath (d : DatasetStatsView)
    (f : FeatureStatsView) : FeaturePath :=
  ((d.impl.data.features.get? f.index).getD defaultFeatureNameStatistics).path

/-- Modelled from the spec (body in the missing `.cc`): the backing
store's path index, looking up the record-list index of a path; global
path uniqueness is a contract precondition, so first match is taken. -/
def lookupPathIdx : List FeatureNameStatistics → FeaturePath → Option Nat
  | [], _ => none
  | r :: rest, p =>
      if r.path = p then some 0 else (lookupPathIdx rest p).map Nat.succ

/-- Modelled from the spec (body in the missing `.cc`):
`DatasetStatsView::GetByPath(path)` — exact lookup via the path index,
absent when no record has that path. -/
def DatasetStatsView.getByPath (d : DatasetStatsView) (p : FeaturePath) :
    Option FeatureStatsView :=
  (lookupPathIdx d.impl.data.features p).map (fun i => FeatureStatsView.mk d i)

/-- Candidate ancestor test for the parent index: record `j` exists, is
STRUCT-typed and its path is a strict prefix of `p` (the header comment
on `GetParent`: `a.is_struct()` and `a.name()` a strict prefix). -/
def isAnc (recs : List FeatureNameStatistics) (p : FeaturePath) (j : Nat) : Bool :=
  match recs.get? j with
  | some r => decide (r.type = FeatureType.STRUCT) && strictAncPath r.path p
  | none => false

/-- FeaturePath length of record `j` (0 when out of range), the quantity the
longest-prefix rule maximises. -/
def pathLenAt (recs : List FeatureNameStatistics) (j : Nat) : Nat :=
  match recs.get? j with
  | some r => r.path.length
  | none => 0

/-- One step of the longest-path argmax scan of the parent-index build. -/
def pickBetter (recs : List FeatureNameStatistics) (best : Option Nat)
    (j : Nat) : Option Nat :=
  match best with
  | none => some j
  | some b => if pathLenAt recs b < pathLenAt recs j then some j else some b

/-- Modelled from the spec (body in the missing `.cc`): the backing
store's parent index for a path `p` — scan all records that are
STRUCT-typed with a path that is a strict prefix of `p` and pick the one
with the greatest path length; `none` when there is no such record. -/
def bestAncestorIdx (recs : List FeatureNameStatistics) (p : FeaturePath) :
    Option Nat :=
  ((List.range recs.length).filter (isAnc recs p)).foldl (pickBetter recs) none

/-- Modelled from the spec (body in the missing `.cc`): the resolved
parent index of record `index` (`none` for a root or an invalid index). -/
def parentIdx (recs : List FeatureNameStatistics) (index : Nat) :
    Option Nat :=
  match recs.get? index with
  | some r => bestAncestorIdx recs r.path
  | none => none

/-- Modelled from the spec (body in the missing `.cc`):
`DatasetStatsView::GetParent(view)` — the feature at the resolved parent
index, or absent. -/
def DatasetStatsView.getParent (d : DatasetStatsView)
    (f : FeatureStatsView) : Option FeatureStatsView :=
  (parentIdx d.impl.data.features f.index).map
    (fun j => FeatureStatsView.mk d j)

/-- Modelled from the spec (body in the missing `.cc`):
`DatasetStatsView::GetChildren(view)` — all features whose resolved
parent is the given feature, in original record order. -/
def DatasetStatsView.getChildren (d : DatasetStatsView)
    (g : FeatureStatsView) : List FeatureStatsView :=
  (DatasetStatsView.features d).filter
    (fun c => decide (parentIdx d.impl.data.features c.index = some g.index))

/-- Modelled from the spec (body in the missing `.cc`):
`DatasetStatsView::GetRootFeatures()` — the features with no resolved
parent. -/
def DatasetStatsView.getRootFeatures (d : DatasetStatsView) :
    List FeatureStatsView :=
  (DatasetStatsView.features d).filter
    (fun f => (DatasetStatsView.getParent d f).isNone)

/-- Inline in the header: `FeatureStatsView::data()` delegates to
`parent_view_.feature_name_statistics(index_)` (the reference return and
its never-taken check-fail are embedded through the `Option`). -/
def FeatureStatsView.data (f : FeatureStatsView) :
    Option FeatureNameStatistics :=
  DatasetStatsView.featureNameStatistics f.parentView f.index

/-- The record a feature view denotes, with the proto default standing in
for the (never exercised from `features()`) out-of-range case. -/
def FeatureStatsView.record (f : FeatureStatsView) : FeatureNameStatistics :=
  (FeatureStatsView.data f).getD defaultFeatureNameStatistics

/-- Inline in the header: `FeatureStatsView::environment()` returns
`parent_view_.environment()`. -/
def FeatureStatsView.environment (f : FeatureStatsView) : Option String :=
  DatasetStatsView.environment f.parentView

/-- Inline in the header: `FeatureStatsView::type()` is the record's
declared type. -/
def FeatureStatsView.type (f : FeatureStatsView) : FeatureType :=
  (FeatureStatsView.record f).type

/-- Inline in the header: `FeatureStatsView::is_struct()` tests the
declared type against the STRUCT marker. -/
def FeatureStatsView.isStruct (f : FeatureStatsView) : Bool :=
  decide (FeatureStatsView.type f = FeatureType.STRUCT)

/-- Modelled from the spec (body in the missing `.cc`):
`FeatureStatsView::GetCommonStatistics()` returns the record's common
statistics block. -/
def FeatureStatsView.getCommonStatistics (f : FeatureStatsView) :
    CommonStatistics :=
  (FeatureStatsView.record f).common

/-- Inline in the header: `FeatureStatsView::min_num_values()` clamps the
stored minimum at zero, `std::max<int>(GetCommonStatistics().min_num_values(), 0)`. -/
def FeatureStatsView.minNumValues (f : FeatureStatsView) : Int :=
  max (FeatureStatsView.getCommonStatistics f).minNumValues 0

/-- Inline in the header: `FeatureStatsView::max_num_values()` is a
pass-through with no clamping. -/
def FeatureStatsView.maxNumValues (f : FeatureStatsView) : Int :=
  (FeatureStatsView.getCommonStatistics f).maxNumValues

/-- Modelled from the spec (body in the missing `.cc`):
`FeatureStatsView::GetNumPresent()` — the weighted or unweighted
non-missing count per `parent_view().by_weight()`. -/
def FeatureStatsView.getNumPresent (f : FeatureStatsView) : Rat :=
  if f.parentView.impl.byWeight then
    (FeatureStatsView.getCommonStatistics f).weighted.numNonMissing
  else ((FeatureStatsView.getCommonStatistics f).numNonMissing : Rat)

/-- Modelled from the spec (body in the missing `.cc`):
`FeatureStatsView::GetNumExamples()` delegates to the parent view. -/
def FeatureStatsView.getNumExamples (f : FeatureStatsView) : Rat :=
  DatasetStatsView.getNumExamples f.parentView

/-- Modelled from the spec (body in the missing `.cc`):
`FeatureStatsView::GetNumMissing()` is the example count minus the
present count, clamped below at zero so a negative missing count is
never surfaced. -/
def FeatureStatsView.getNumMissing (f : FeatureStatsView) : Rat :=
  max (FeatureStatsView.getNumExamples f - FeatureStatsView.getNumPresent f) 0

/-- Modelled from the spec (body in the missing `.cc`):
`FeatureStatsView::GetFractionPresent()` is absent when the example
count is zero (never an infinite or NaN fraction), else the quotient. -/
def FeatureStatsView.getFractionPresent (f : FeatureStatsView) :
    Option Rat :=
  if FeatureStatsView.getNumExamples f = 0 then none
  else some (FeatureStatsView.getNumPresent f / FeatureStatsView.getNumExamples f)

/-- Modelled from the spec (body in the missing `.cc`):
`FeatureStatsView::GetParent()` delegates to the dataset view's
structural navigation for this feature. -/
def FeatureStatsView.getParent (f : FeatureStatsView) :
    Option FeatureStatsView :=
  DatasetStatsView.getParent f.parentView f

/-- Modelled from the spec (body in the missing `.cc`):
`FeatureStatsView::GetChildren()` delegates to the dataset view's
structural navigation for this feature. -/
def FeatureStatsView.getChildren (f : FeatureStatsView) :
    List FeatureStatsView :=
  DatasetStatsView.getChildren f.parentView f

/-- A STRUCT-typed feature record at path `a`, used as a concrete sample
(the spec's two-record scenario). -/
def rec0 : FeatureNameStatistics :=
  { path := ["a"]
    type := FeatureType.STRUCT
    common :=
      { numNonMissing := 7
        numMissing := 3
        minNumValues := 1
        maxNumValues := 4
        hasWeighted := false
        weighted := { numNonMissing := 0, numMissing := 0 } } }

/-- An INT-typed feature record at path `a.b` with an inconsistent stored
minimum value count of `-3`, used as a concrete sample. -/
def rec1 : FeatureNameStatistics :=
  { path := ["a", "b"]
    type := FeatureType.INT
    common :=
      { numNonMissing := 5
        numMissing := 5
        minNumValues := -3
        maxNumValues := 2
        hasWeighted := false
        weighted := { numNonMissing := 0, numMissing := 0 } } }

/-- A concrete dataset view over the two sample records: 10 examples,
unweighted interpretation, a TRAINING environment, no comparison views. -/
def d0 : DatasetStatsView :=
  DatasetStatsView.mk
    (DatasetStatsViewImpl.mk
      { numExamples := 10, weightedNumExamples := 0, features := [rec0, rec1] }
      false (some "TRAINING") none none)

theorem get?_some_lt {α : Type} (l : List α) (n : Nat) (a : α)
    (h : l.get? n = some a) : n < l.length := by
  by_contra hc
  rw [List.get?_eq_none.mpr (Nat.le_of_not_lt hc)] at h
  exact Option.noConfusion h

theorem feature_eta (d : DatasetStatsView) (f : FeatureStatsView)
    (hp : f.parentView = d) : FeatureStatsView.mk d f.index = f := by
  subst hp
  rfl

theorem mem_features_iff (d : DatasetStatsView) (f : FeatureStatsView) :
    f ∈ DatasetStatsView.features d ↔
      f.parentView = d ∧ f.index < d.impl.data.features.length := by
  unfold DatasetStatsView.features
  rw [List.mem_map]
  constructor
  · rintro ⟨i, hi, rfl⟩
    exact ⟨rfl, List.mem_range.mp hi⟩
  · rintro ⟨hp, hl⟩
    exact ⟨f.index, List.mem_range.mpr hl, feature_eta d f hp⟩

theorem lookupPathIdx_of_nodup (recs : List FeatureNameStatistics)
    (hnd : (recs.map (fun r => r.path)).Nodup) :
    ∀ (i : Nat) (r : FeatureNameStatistics), recs.get? i = some r →
      lookupPathIdx recs r.path = some i := by
  induction recs with
  | nil =>
    intro i r h
    exact Option.noConfusion h
  | cons x xs ih =>
    intro i r h
    rw [List.map_cons, List.nodup_cons] at hnd
    match i with
    | 0 =>
      have hx : x = r := Option.some.inj h
      subst hx
      unfold lookupPathIdx
      rw [if_pos rfl]
    | Nat.succ k =>
      have hget : xs.get? k = some r := h
      have hr : r ∈ xs := List.get?_mem hget
      have hne : x.path ≠ r.path := by
        intro he
        exact hnd.1 (he ▸ List.mem_map_of_mem (fun s => s.path) hr)
      unfold lookupPathIdx
      rw [if_neg hne, ih hnd.2 k r hget]
      rfl

theorem isAnc_iff (recs : List FeatureNameStatistics) (p : FeaturePath)
    (j : Nat) :
    isAnc recs p j = true ↔
      ∃ r, recs.get? j = some r ∧ r.type = FeatureType.STRUCT ∧
        strictAncPath r.path p = true := by
  unfold isAnc
  cases h : recs.get? j with
  | none => simp
  | some r => simp [Bool.and_eq_true, decide_eq_true_eq]

theorem foldl_pickBetter_spec (recs : List FeatureNameStatistics)
    (l : List Nat) :
    ∀ b : Nat, ∃ j, l.foldl (pickBetter recs) (some b) = some j ∧
      (j = b ∨ j ∈ l) ∧
      ∀ k, (k = b ∨ k ∈ l) → pathLenAt recs k ≤ pathLenAt recs j := by
  induction l with
  | nil =>
    intro b
    refine ⟨b, rfl, Or.inl rfl, ?_⟩
    rintro k (rfl | hk)
    · exact Nat.le_refl _
    · exact absurd hk (List.not_mem_nil k)
  | cons x xs ih =>
    intro b
    rw [List.foldl_cons]
    by_cases hbx : pathLenAt recs b < pathLenAt recs x
    · obtain ⟨j, hfold, hmem, hmax⟩ := ih x
      refine ⟨j, ?_, ?_, ?_⟩
      · rw [show pickBetter recs (some b) x = some x from if_pos hbx]
        exact hfold
      · rcases hmem with rfl | hj
        · exact Or.inr (List.mem_cons_self _ _)
        · exact Or.inr (List.mem_cons_of_mem _ hj)
      · rintro k (rfl | hk)
        · exact Nat.le_trans (Nat.le_of_lt hbx) (hmax x (Or.inl rfl))
        · rcases List.mem_cons.mp hk with rfl | hk2
          · exact hmax k (Or.inl rfl)
          · exact hmax k (Or.inr hk2)
    · obtain ⟨j, hfold, hmem, hmax⟩ := ih b
      refine ⟨j, ?_, ?_, ?_⟩
      · rw [show pickBetter recs (some b) x = some b from if_neg hbx]
        exact hfold
      · rcases hmem with rfl | hj
        · exact Or.inl rfl
        · exact Or.inr (List.mem_cons_of_mem _ hj)
      · rintro k (rfl | hk)
        · exact hmax k (Or.inl rfl)
        · rcases List.mem_cons.mp hk with rfl | hk2
          · exact Nat.le_trans (Nat.le_of_not_lt hbx) (hmax b (Or.inl rfl))
          · exact hmax k (Or.inr hk2)

theorem bestAncestorIdx_spec (recs : List FeatureNameStatistics)
    (p : FeaturePath) (j : Nat) (h : bestAncestorIdx recs p = some j) :
    isAnc recs p j = true ∧
      ∀ k, isAnc recs p k = true → pathLenAt recs k ≤ pathLenAt recs j := by
  unfold bestAncestorIdx at h
  cases hl : (List.range recs.length).filter (isAnc recs p) with
  | nil =>
    rw [hl] at h
    exact Option.noConfusion h
  | cons x xs =>
    rw [hl, List.foldl_cons,
      show pickBetter recs none x = some x from rfl] at h
    obtain ⟨j0, hfold, hmem, hmax⟩ := foldl_pickBetter_spec recs xs x
    rw [hfold] at h
    have hjj : j0 = j := Option.some.inj h
    subst hjj
    have hmemfil : ∀ k, (k = x ∨ k ∈ xs) ↔
        k ∈ (List.range recs.length).filter (isAnc recs p) := by
      intro k
      rw [hl, List.mem_cons]
    constructor
    · exact (List.mem_filter.mp ((hmemfil j0).mp hmem)).2
    · intro k hk
      have hklt : k < recs.length := by
        unfold isAnc at hk
        cases hget : recs.get? k with
        | none =>
          rw [hget] at hk
          exact absurd hk (by simp)
        | some r => exact get?_some_lt _ _ _ hget
      exact hmax k ((hmemfil k).mpr
        (List.mem_filter.mpr ⟨List.mem_range.mpr hklt, hk⟩))

theorem getPath_eq_of_get? (d : DatasetStatsView) (f : FeatureStatsView)
    (r : FeatureNameStatistics)
    (h : d.impl.data.features.get? f.index = some r) :
    DatasetStatsView.getPath d f = r.path := by
  unfold DatasetStatsView.getPath
  rw [h]
  rfl

theorem getParent_elim (d : DatasetStatsView) (f g : FeatureStatsView)
    (hg : DatasetStatsView.getParent d f = some g) :
    g.parentView = d ∧
      parentIdx d.impl.data.features f.index = some g.index := by
  unfold DatasetStatsView.getParent at hg
  cases hpi : parentIdx d.impl.data.features f.index with
  | none =>
    rw [hpi] at hg
    exact Option.noConfusion hg
  | some j =>
    rw [hpi, Option.map_some'] at hg
    have hgeq : FeatureStatsView.mk d j = g := Option.some.inj hg
    rw [← hgeq]
    exact ⟨rfl, rfl⟩

/-- The claim C1: whenever `GetParent` resolves a parent `g` for a
feature `f` of the dataset view, `g` denotes a STRUCT-typed record whose
path is a strict prefix of `f`'s path, and every STRUCT-typed record
whose path is a strict prefix of `f`'s path has a path no longer than
`g`'s. -/
theorem getParent_struct_longest_strict_ancestor (d : DatasetStatsView)
    (f g : FeatureStatsView) (hf : f ∈ DatasetStatsView.features d)
    (hg : DatasetStatsView.getParent d f = some g) :
    (FeatureStatsView.record g).type = FeatureType.STRUCT ∧
    strictAncPath (FeatureStatsView.record g).path
      (DatasetStatsView.getPath d f) = true ∧
    ∀ j r, d.impl.data.features.get? j = some r →
      r.type = FeatureType.STRUCT →
      strictAncPath r.path (DatasetStatsView.getPath d f) = true →
      r.path.length ≤ (FeatureStatsView.record g).path.length := by
  obtain ⟨hp, hl⟩ := (mem_features_iff d f).mp hf
  obtain ⟨rf, hrf⟩ : ∃ rf, d.impl.data.features.get? f.index = some rf := by
    rw [List.get?_eq_get hl]
    exact ⟨_, rfl⟩
  obtain ⟨hgpv, hpi⟩ := getParent_elim d f g hg
  unfold parentIdx at hpi
  rw [hrf] at hpi
  obtain ⟨hAnc, hmax⟩ := bestAncestorIdx_spec _ _ _ hpi
  obtain ⟨rg, hrg, hty, hanc⟩ := (isAnc_iff _ _ _).mp hAnc
  have hgrec : FeatureStatsView.record g = rg := by
    unfold FeatureStatsView.record FeatureStatsView.data
      DatasetStatsView.featureNameStatistics
    rw [hgpv, hrg]
    rfl
  have hpath : DatasetStatsView.getPath d f = rf.path :=
    getPath_eq_of_get? d f rf hrf
  refine ⟨by rw [hgrec]; exact hty, by rw [hgrec, hpath]; exact hanc, ?_⟩
  intro j r hj hjty hjanc
  have hjAnc : isAnc d.impl.data.features rf.path j = true :=
    (isAnc_iff _ _ _).mpr ⟨r, hj, hjty, by rw [← hpath]; exact hjanc⟩
  have hle := hmax j hjAnc
  have h1 : pathLenAt d.impl.data.features j = r.path.length := by
    unfold pathLenAt
    rw [hj]
  have h2 : pathLenAt d.impl.data.features g.index = rg.path.length := by
    unfold pathLenAt
    rw [hrg]
  rw [hgrec]
  rw [h1, h2] at hle
  exact hle

/-- The claim C2: under the contract precondition that feature paths are
globally unique, looking up `GetPath(f)` through `GetByPath` recovers
exactly the feature view `f`, for every `f` produced by `features()`. -/
theorem getByPath_getPath_roundtrip (d : DatasetStatsView)
    (f : FeatureStatsView)
    (hnd : (d.impl.data.features.map (fun r => r.path)).Nodup)
    (hf : f ∈ DatasetStatsView.features d) :
    DatasetStatsView.getByPath d (DatasetStatsView.getPath d f) = some f := by
  obtain ⟨hp, hl⟩ := (mem_features_iff d f).mp hf
  obtain ⟨rf, hrf⟩ : ∃ rf, d.impl.data.features.get? f.index = some rf := by
    rw [List.get?_eq_get hl]
    exact ⟨_, rfl⟩
  unfold DatasetStatsView.getByPath
  rw [getPath_eq_of_get? d f rf hrf,
    lookupPathIdx_of_nodup _ hnd f.index rf hrf, Option.map_some',
    feature_eta d f hp]

/-- The claim C3: `GetRootFeatures()` contains exactly those features of
`features()` whose `GetParent` is absent, and it is a sublist of
`features()`, so the record list's original order is preserved. -/
theorem getRootFeatures_spec (d : DatasetStatsView) :
    (∀ f, f ∈ DatasetStatsView.getRootFeatures d ↔
      (f ∈ DatasetStatsView.features d ∧
        DatasetStatsView.getParent d f = none)) ∧
    List.Sublist (DatasetStatsView.getRootFeatures d)
      (DatasetStatsView.features d) := by
  constructor
  · intro f
    unfold DatasetStatsView.getRootFeatures
    rw [List.mem_filter]
    simp [Option.isNone_iff_eq_none]
  · exact List.filter_sublist _

theorem getParent_intro (d : DatasetStatsView) (c g : FeatureStatsView)
    (hgpv : g.parentView = d)
    (h : parentIdx d.impl.data.features c.index = some g.index) :
    DatasetStatsView.getParent d c = some g := by
  unfold DatasetStatsView.getParent
  rw [h, Option.map_some', feature_eta d g hgpv]

/-- The claim C4: every feature with a resolved parent is among that
parent's children, and for every feature `g` of the view, `GetChildren(g)`
consists exactly of the features whose resolved parent is `g`, as a
sublist of `features()` (hence in original record order). -/
theorem getChildren_spec (d : DatasetStatsView) :
    (∀ f g, f ∈ DatasetStatsView.features d →
      DatasetStatsView.getParent d f = some g →
      f ∈ DatasetStatsView.getChildren d g) ∧
    (∀ g, g ∈ DatasetStatsView.features d →
      ((∀ c, c ∈ DatasetStatsView.getChildren d g ↔
        (c ∈ DatasetStatsView.features d ∧
          DatasetStatsView.getParent d c = some g)) ∧
       List.Sublist (DatasetStatsView.getChildren d g)
         (DatasetStatsView.features d))) := by
  constructor
  · intro f g hf hg
    obtain ⟨hgpv, hpi⟩ := getParent_elim d f g hg
    unfold DatasetStatsView.getChildren
    exact List.mem_filter.mpr ⟨hf, by rw [decide_eq_true_eq]; exact hpi⟩
  · intro g hg
    have hgpv : g.parentView = d := ((mem_features_iff d g).mp hg).1
    constructor
    · intro c
      unfold DatasetStatsView.getChildren
      rw [List.mem_filter]
      refine and_congr_right (fun _ => ?_)
      rw [decide_eq_true_eq]
      constructor
      · intro h
        exact getParent_intro d c g hgpv h
      · intro h
        exact (getParent_elim d c g h).2
    · exact List.filter_sublist _

/-- The claim C5: `GetFractionPresent()` is absent exactly when the
(possibly weighted) example count is zero — so no infinite or NaN
fraction is ever produced — and otherwise it is the present count
divided by the example count. -/
theorem getFractionPresent_spec (f : FeatureStatsView) :
    (FeatureStatsView.getFractionPresent f = none ↔
      FeatureStatsView.getNumExamples f = 0) ∧
    (FeatureStatsView.getNumExamples f ≠ 0 →
      FeatureStatsView.getFractionPresent f =
        some (FeatureStatsView.getNumPresent f /
          FeatureStatsView.getNumExamples f)) := by
  unfold FeatureStatsView.getFractionPresent
  by_cases h : FeatureStatsView.getNumExamples f = 0
  · rw [if_pos h]
    exact ⟨iff_of_true rfl h, fun hc => absurd h hc⟩
  · rw [if_neg h]
    exact ⟨iff_of_false (by simp) h, fun _ => rfl⟩

/-- The claim C6: `GetNumMissing()` equals the example count minus the
present count clamped below at zero — it equals the plain difference
when that difference is nonnegative, is zero when the difference is
negative, and is never negative. -/
theorem getNumMissing_spec (f : FeatureStatsView) :
    0 ≤ FeatureStatsView.getNumMissing f ∧
    (FeatureStatsView.getNumPresent f ≤ FeatureStatsView.getNumExamples f →
      FeatureStatsView.getNumMissing f =
        FeatureStatsView.getNumExamples f - FeatureStatsView.getNumPresent f) ∧
    (FeatureStatsView.getNumExamples f < FeatureStatsView.getNumPresent f →
      FeatureStatsView.getNumMissing f = 0) := by
  unfold FeatureStatsView.getNumMissing
  refine ⟨le_max_right _ _, fun h => max_eq_left (sub_nonneg.mpr h),
    fun h => max_eq_right (sub_nonpos.mpr (le_of_lt h))⟩

/-- The claim C7: `min_num_values()` is never negative — it is zero when
the stored minimum in the common statistics is negative and the stored
value unchanged otherwise. -/
theorem minNumValues_spec (f : FeatureStatsView) :
    0 ≤ FeatureStatsView.minNumValues f ∧
    ((FeatureStatsView.getCommonStatistics f).minNumValues < 0 →
      FeatureStatsView.minNumValues f = 0) ∧
    (0 ≤ (FeatureStatsView.getCommonStatistics f).minNumValues →
      FeatureStatsView.minNumValues f =
        (FeatureStatsView.getCommonStatistics f).minNumValues) := by
  unfold FeatureStatsView.minNumValues
  exact ⟨le_max_right _ _, fun h => max_eq_right (le_of_lt h),
    fun h => max_eq_left h⟩

/-- The claim C8: two dataset views sharing the same backing store (the
situation produced by the defaulted shallow copy constructor and
assignment) return equal results on every public query. -/
theorem shallow_copy_observably_equal (d d' : DatasetStatsView)
    (h : d.impl = d'.impl) :
    DatasetStatsView.getNumExamples d = DatasetStatsView.getNumExamples d' ∧
    DatasetStatsView.features d = DatasetStatsView.features d' ∧
    DatasetStatsView.getRootFeatures d = DatasetStatsView.getRootFeatures d' ∧
    (∀ p, DatasetStatsView.getByPath d p = DatasetStatsView.getByPath d' p) ∧
    (∀ f, DatasetStatsView.getParent d f = DatasetStatsView.getParent d' f) ∧
    (∀ f, DatasetStatsView.getChildren d f =
      DatasetStatsView.getChildren d' f) ∧
    (∀ f, DatasetStatsView.getPath d f = DatasetStatsView.getPath d' f) ∧
    DatasetStatsView.weightedStatisticsExist d =
      DatasetStatsView.weightedStatisticsExist d' ∧
    DatasetStatsView.getPrevious d = DatasetStatsView.getPrevious d' ∧
    DatasetStatsView.getServing d = DatasetStatsView.getServing d' ∧
    DatasetStatsView.byWeight d = DatasetStatsView.byWeight d' ∧
    DatasetStatsView.environment d = DatasetStatsView.environment d' := by
  have hdd : d = d' := by
    cases d
    cases d'
    cases h
    rfl
  subst hdd
  exact ⟨rfl, rfl, rfl, fun _ => rfl, fun _ => rfl, fun _ => rfl,
    fun _ => rfl, rfl, rfl, rfl, rfl, rfl⟩

/-- The claim C9: record lookup by index fails (embedded as `none`, the
check-fail branch) exactly when the index is out of range of the backing
record list, and the lookup reached through `FeatureStatsView::data()`
succeeds for every view constructed by `features()`. -/
theorem featureNameStatistics_fail_iff (d : DatasetStatsView) :
    (∀ i, DatasetStatsView.featureNameStatistics d i = none ↔
      d.impl.data.features.length ≤ i) ∧
    (∀ f, f ∈ DatasetStatsView.features d →
      (FeatureStatsView.data f).isSome = true) := by
  constructor
  · intro i
    exact List.get?_eq_none
  · intro f hf
    obtain ⟨hp, hl⟩ := (mem_features_iff d f).mp hf
    unfold FeatureStatsView.data DatasetStatsView.featureNameStatistics
    rw [hp, List.get?_eq_get hl]
    rfl

/-- The claim C10: the feature-level `environment()` accessor is a pure
delegation to the owning dataset view's `environment()`. -/
theorem environment_delegates (f : FeatureStatsView) :
    FeatureStatsView.environment f =
      DatasetStatsView.environment f.parentView := rfl

theorem mem_features_d0_zero :
    FeatureStatsView.mk d0 0 ∈ DatasetStatsView.features d0 := by
  rw [show DatasetStatsView.features d0 =
    [FeatureStatsView.mk d0 0, FeatureStatsView.mk d0 1] from rfl]
  exact List.mem_cons_self _ _

theorem mem_features_d0_one :
    FeatureStatsView.mk d0 1 ∈ DatasetStatsView.features d0 := by
  rw [show DatasetStatsView.features d0 =
    [FeatureStatsView.mk d0 0, FeatureStatsView.mk d0 1] from rfl]
  exact List.mem_cons_of_mem _ (List.mem_cons_self _ _)

/-- Witness for C1 at the two-record sample: the resolved parent of the
feature at path `a.b` is STRUCT-typed and its path is a strict prefix. -/
theorem getParent_struct_longest_strict_ancestor_witness :
    (FeatureStatsView.record (FeatureStatsView.mk d0 0)).type =
      FeatureType.STRUCT ∧
    strictAncPath (FeatureStatsView.record (FeatureStatsView.mk d0 0)).path
      (DatasetStatsView.getPath d0 (FeatureStatsView.mk d0 1)) = true := by
  have h := getParent_struct_longest_strict_ancestor d0
    (FeatureStatsView.mk d0 1) (FeatureStatsView.mk d0 0)
    mem_features_d0_one rfl
  exact ⟨h.1, h.2.1⟩

/-- Witness for C2 at the two-record sample: looking the path `a.b` back
up recovers the same feature view. -/
theorem getByPath_getPath_roundtrip_witness :
    DatasetStatsView.getByPath d0
      (DatasetStatsView.getPath d0 (FeatureStatsView.mk d0 1)) =
      some (FeatureStatsView.mk d0 1) :=
  getByPath_getPath_roundtrip d0 (FeatureStatsView.mk d0 1) (by decide)
    mem_features_d0_one

/-- Witness for C3 at the two-record sample: the parentless feature at
path `a` is among the root features. -/
theorem getRootFeatures_spec_witness :
    FeatureStatsView.mk d0 0 ∈ DatasetStatsView.getRootFeatures d0 :=
  ((getRootFeatures_spec d0).1 (FeatureStatsView.mk d0 0)).mpr
    ⟨mem_features_d0_zero, rfl⟩

/-- Witness for C4 at the two-record sample: the feature at path `a.b`
is among the children of its resolved parent at path `a`. -/
theorem getChildren_spec_witness :
    FeatureStatsView.mk d0 1 ∈
      DatasetStatsView.getChildren d0 (FeatureStatsView.mk d0 0) :=
  (getChildren_spec d0).1 (FeatureStatsView.mk d0 1)
    (FeatureStatsView.mk d0 0) mem_features_d0_one rfl

/-- Witness for C5 at the two-record sample: with 10 examples the
fraction present of the feature at path `a.b` is its quotient. -/
theorem getFractionPresent_spec_witness :
    FeatureStatsView.getFractionPresent (FeatureStatsView.mk d0 1) =
      some (FeatureStatsView.getNumPresent (FeatureStatsView.mk d0 1) /
        FeatureStatsView.getNumExamples (FeatureStatsView.mk d0 1)) :=
  (getFractionPresent_spec (FeatureStatsView.mk d0 1)).2 (by
    rw [show FeatureStatsView.getNumExamples (FeatureStatsView.mk d0 1) =
      10 from rfl]
    norm_num)

/-- Witness for C6 at the two-record sample: 5 of 10 examples present
gives a plain difference, not a clamped zero. -/
theorem getNumMissing_spec_witness :
    FeatureStatsView.getNumMissing (FeatureStatsView.mk d0 1) =
      FeatureStatsView.getNumExamples (FeatureStatsView.mk d0 1) -
        FeatureStatsView.getNumPresent (FeatureStatsView.mk d0 1) :=
  (getNumMissing_spec (FeatureStatsView.mk d0 1)).2.1 (by
    rw [show FeatureStatsView.getNumPresent (FeatureStatsView.mk d0 1) =
      5 from rfl,
      show FeatureStatsView.getNumExamples (FeatureStatsView.mk d0 1) =
      10 from rfl]
    norm_num)

/-- Witness for C7 at the two-record sample: the stored minimum `-3` of
the feature at path `a.b` is reported as zero. -/
theorem minNumValues_spec_witness :
    FeatureStatsView.minNumValues (FeatureStatsView.mk d0 1) = 0 :=
  (minNumValues_spec (FeatureStatsView.mk d0 1)).2.1 (by decide)

/-- Witness for C8 at the sample dataset view: a copy sharing the same
backing store answers `GetNumExamples` identically. -/
theorem shallow_copy_observably_equal_witness :
    DatasetStatsView.getNumExamples d0 = DatasetStatsView.getNumExamples d0 :=
  (shallow_copy_observably_equal d0 d0 rfl).1

/-- Witness for C9 at the sample dataset view: lookup through a
`features()`-derived view succeeds, and lookup at the out-of-range index
5 takes the failure branch. -/
theorem featureNameStatistics_fail_iff_witness :
    (FeatureStatsView.data (FeatureStatsView.mk d0 1)).isSome = true ∧
    DatasetStatsView.featureNameStatistics d0 5 = none :=
  ⟨(featureNameStatistics_fail_iff d0).2 (FeatureStatsView.mk d0 1)
      mem_features_d0_one,
    ((featureNameStatistics_fail_iff d0).1 5).mpr (by decide)⟩
